import Mathlib

/-!
Verification of the cairo-vm core: the bitwise builtin memory view
(src/builtins/bitwise.ts) and the instruction decoder (Instruction /
decodeInstruction), against the specification of the execution engine.

Machine integers of the source (JS bigint) are modelled as Nat / Int with
explicit masking; fallible code returns Except; the proxied memory segment
of a builtin is modelled as a JS-style sparse array, a list of optional
cells.
-/

/-- Cairo prime: p = 2^251 + 17 * 2^192 + 1. -/
def PRIME : Nat := 2 ^ 251 + 17 * 2 ^ 192 + 1

/-- Field element of the Cairo prime field, identified by its canonical
representative in [0, p).  The class lives in primitives/felt.ts. -/
structure Felt where
  val : Nat
  deriving DecidableEq, Repr

/-- Modelled from the spec: the `Felt` constructor (primitives/felt.ts is not
among the visible sources) reduces its non-negative integer argument to the
canonical representative in [0, p): "every Felt is reduced mod p". -/
def Felt.ofBigInt (n : Nat) : Felt := ⟨n % PRIME⟩

/-- Conversion of a Felt to its canonical non-negative integer. -/
def Felt.toBigInt (f : Felt) : Nat := f.val

/-- Segmented address `(segment_id, offset)` from primitives/relocatable.ts. -/
structure Relocatable where
  segmentId : Nat
  offset : Nat
  deriving DecidableEq, Repr

/-- Tagged union of the two kinds of memory values (primitives/segmentValue.ts). -/
inductive SegmentValue where
  | felt (f : Felt)
  | rel (r : Relocatable)
  deriving DecidableEq, Repr

/-- Discriminator `isFelt` of primitives/segmentValue.ts. -/
def SegmentValue.isFelt : SegmentValue → Bool
  | .felt _ => true
  | .rel _ => false

/-- One memory segment: a JS-style sparse array of cells.  A missing or
out-of-range entry reads as `none` (JS `undefined`). -/
abbrev Segment : Type := List (Option SegmentValue)

/-- Reading `target[offset]` on a JS array: the element when the index is in
range and assigned, `undefined` (here `none`) otherwise. -/
def Segment.read (s : Segment) (o : Nat) : Option SegmentValue :=
  s[o]?.getD none

/-- Writing `target[offset] = v` on a JS array: sets the cell in place when
the index is in range, otherwise extends the array with holes up to the
index and appends the value. -/
def Segment.write (s : Segment) (o : Nat) (v : SegmentValue) : Segment :=
  if o < s.length then s.set o (some v)
  else s ++ List.replicate (o - s.length) none ++ [some v]

theorem Segment.read_write_self (s : Segment) (o : Nat) (v : SegmentValue) :
    (s.write o v).read o = some v := by
  unfold Segment.write Segment.read
  split
  · rename_i h
    rw [List.getElem?_set_self h]
    rfl
  · rename_i h
    have hlen : (s ++ List.replicate (o - s.length) none).length = o := by
      simp only [List.length_append, List.length_replicate]
      omega
    rw [List.getElem?_append_right (le_of_eq hlen)]
    simp [hlen]

theorem Segment.read_write_ne (s : Segment) (o o' : Nat) (v : SegmentValue)
    (h : o' ≠ o) : (s.write o v).read o' = s.read o' := by
  unfold Segment.write Segment.read
  split
  · rw [List.getElem?_set_ne (Ne.symm h)]
  · rename_i hlt
    have hle : s.length ≤ o := by omega
    by_cases h1 : o' < s.length
    · have h1' : o' < (s ++ List.replicate (o - s.length) none).length := by
        simp only [List.length_append, List.length_replicate]
        omega
      rw [List.getElem?_append_left h1', List.getElem?_append_left h1]
    · have hnone : s[o']? = none := List.getElem?_eq_none (by omega)
      rw [hnone]
      by_cases h2 : o' < o
      · have h1' : o' < (s ++ List.replicate (o - s.length) none).length := by
          simp only [List.length_append, List.length_replicate]
          omega
        rw [List.getElem?_append_left h1', List.getElem?_append_right (by omega),
          List.getElem?_replicate, if_pos (by omega)]
        rfl
      · rw [List.getElem?_eq_none]
        simp only [List.length_append, List.length_replicate, List.length_cons,
          List.length_nil]
        omega

theorem Segment.write_cancel (s : Segment) (o : Nat) (v : SegmentValue)
    (h : s.read o = some v) : s.write o v = s := by
  unfold Segment.read at h
  have hsome : s[o]? = some (some v) := by
    cases hg : s[o]? with
    | none => rw [hg] at h; simp at h
    | some c =>
      rw [hg] at h
      simp at h
      rw [h]
  have hlt : o < s.length := by
    by_contra hc
    rw [List.getElem?_eq_none (by omega)] at hsome
    exact Option.noConfusion hsome
  unfold Segment.write
  rw [if_pos hlt]
  apply List.ext_getElem?
  intro n
  by_cases hn : o = n
  · subst hn
    rw [List.getElem?_set_self hlt, hsome]
  · exact List.getElem?_set_ne hn

/-- Errors the bitwise view and the memory insert path can raise:
`UndefinedValue` is errors/builtins.ts, `ExpectedFelt` is
errors/virtualMachine.ts, `InconsistentMemory` is errors/memory.ts (there
with a Relocatable address; the segment id is fixed here, so the offset
identifies the cell). -/
inductive BuiltinError where
  | UndefinedValue (offset : Nat)
  | ExpectedFelt
  | InconsistentMemory (address : Nat) (oldValue newValue : SegmentValue)
  deriving DecidableEq, Repr

deriving instance DecidableEq for Except

/-- The `get` trap of `bitwiseHandler` (src/builtins/bitwise.ts) on a numeric
property: input cells (offset mod 5 < 2) are read from the underlying
storage; for an output cell the two block inputs are fetched and must be
assigned Felts, the bitwise result is assigned directly into the storage at
`offset`, and the freshly read cell is returned.  The possibly mutated
storage is returned alongside the value. -/
def bitwiseGet (target : Segment) (prop : Nat) : Except BuiltinError (Segment × Option SegmentValue) :=
  let cellsPerBitwise := 5
  let inputCellsPerBitwise := 2
  let offset := prop
  let bitwiseIndex := offset % cellsPerBitwise
  if bitwiseIndex < inputCellsPerBitwise then
    .ok (target, target.read offset)
  else
    let xOffset := offset - bitwiseIndex
    match target.read xOffset with
    | none => .error (.UndefinedValue xOffset)
    | some xValue =>
      match xValue with
      | .rel _ => .error .ExpectedFelt
      | .felt xf =>
        let x := xf.toBigInt
        let yOffset := xOffset + 1
        match target.read yOffset with
        | none => .error (.UndefinedValue yOffset)
        | some yValue =>
          match yValue with
          | .rel _ => .error .ExpectedFelt
          | .felt yf =>
            let y := yf.toBigInt
            let target1 : Segment :=
              match bitwiseIndex with
              | 2 => target.write offset (.felt (Felt.ofBigInt (x &&& y)))
              | 3 => target.write offset (.felt (Felt.ofBigInt (x ^^^ y)))
              | 4 => target.write offset (.felt (Felt.ofBigInt (x ||| y)))
              | _ => target
            .ok (target1, target1.read offset)

/-- Modelled from the spec: the write-once insert path of Memory
(memory.ts is not among the visible sources).  On a builtin segment the
current value of the cell is observed through the builtin view (the proxy
`get` trap), so for an output cell the insert is "permitted only if the
value equals the would-be computed value"; a differing value raises
`InconsistentMemory`. -/
def memoryInsert (target : Segment) (o : Nat) (v : SegmentValue) : Except BuiltinError Segment :=
  match bitwiseGet target o with
  | .error e => .error e
  | .ok (target1, cur) =>
    match cur with
    | some w => if w = v then .ok (target1.write o v) else .error (.InconsistentMemory o w v)
    | none => .ok (target1.write o v)

/-- The three registers of the Cairo machine (instruction.ts `Register`). -/
inductive Register where
  | Pc
  | Ap
  | Fp
  deriving DecidableEq, Repr

/-- The sources from which op1 can be computed (instruction.ts `Op1Src`). -/
inductive Op1Src where
  | Pc
  | Ap
  | Fp
  | Op0
  deriving DecidableEq, Repr

/-- How res is computed from op0 and op1 (instruction.ts `ResLogic`; the
source tags the variants with the disjoint bits 1<<1 .. 1<<4 so that
`opcode | res_logic` is a single discriminator, which does not affect the
decoder's behaviour). -/
inductive ResLogic where
  | Op1
  | Add
  | Mul
  | Unused
  deriving DecidableEq, Repr

/-- How pc is updated (instruction.ts `PcUpdate`). -/
inductive PcUpdate where
  | Regular
  | Jump
  | JumpRel
  | Jnz
  deriving DecidableEq, Repr

/-- How ap is updated (instruction.ts `ApUpdate`). -/
inductive ApUpdate where
  | Ap
  | AddRes
  | Add1
  | Add2
  deriving DecidableEq, Repr

/-- How fp is updated (instruction.ts `FpUpdate`); derived, not encoded. -/
inductive FpUpdate where
  | Fp
  | ApPlus2
  | Dst
  deriving DecidableEq, Repr

/-- The instruction opcode (instruction.ts `Opcode`; the source tags the
variants with the disjoint bits 1<<5 .. 1<<8, see `ResLogic`). -/
inductive Opcode where
  | NoOp
  | Call
  | Ret
  | AssertEq
  deriving DecidableEq, Repr

/-- Decoded first word of a Cairo instruction (instruction.ts `Instruction`),
fields in constructor order. -/
structure Instruction where
  dstOffset : Int
  op0Offset : Int
  op1Offset : Int
  dstRegister : Register
  op0Register : Register
  op1Register : Op1Src
  resLogic : ResLogic
  pcUpdate : PcUpdate
  apUpdate : ApUpdate
  fpUpdate : FpUpdate
  opcode : Opcode
  deriving DecidableEq, Repr

/-- Decoder errors from errors/instruction.ts. -/
inductive InstructionError where
  | HighBitSetError
  | InvalidDstRegister
  | InvalidOp0Register
  | InvalidOp1Register
  | InvalidOpcode
  | InvalidPcUpdate
  | InvalidResLogic
  | InvalidApUpdate
  deriving DecidableEq, Repr

/-- Value added to the offsets on encoded instructions: BIAS = 2^15. -/
def Instruction.BIAS : Int := 2 ^ 15

/-- `fromBiased(value) = value - BIAS` as a signed number. -/
def Instruction.fromBiased (value : Nat) : Int :=
  (value : Int) - Instruction.BIAS

/-- The flags block of an encoded instruction: bits 48 and above. -/
def flagsOf (encodedInstruction : Nat) : Nat := encodedInstruction >>> 48

/-- Flag field `dst_reg`: bit 0 of the flags. -/
def dstRegisterFlag (w : Nat) : Nat := flagsOf w &&& 0b1

/-- Flag field `op0_reg`: bit 1 of the flags. -/
def op0RegisterFlag (w : Nat) : Nat := (flagsOf w >>> 1) &&& 0b1

/-- Flag field `op1_src`: bits 2..4 of the flags. -/
def op1RegisterFlag (w : Nat) : Nat := (flagsOf w >>> 2) &&& 0b111

/-- Flag field `res_logic`: bits 5..6 of the flags. -/
def resLogicFlag (w : Nat) : Nat := (flagsOf w >>> 5) &&& 0b11

/-- Flag field `pc_update`: bits 7..9 of the flags. -/
def pcUpdateFlag (w : Nat) : Nat := (flagsOf w >>> 7) &&& 0b111

/-- Flag field `ap_update`: bits 10..11 of the flags. -/
def apUpdateFlag (w : Nat) : Nat := (flagsOf w >>> 10) &&& 0b11

/-- Flag field `opcode`: bits 12..14 of the flags. -/
def opcodeFlag (w : Nat) : Nat := (flagsOf w >>> 12) &&& 0b111

/-- The `switch (dstRegisterFlag)` of decodeInstruction: 0 is Ap, 1 is Fp,
anything else raises InvalidDstRegister. -/
def decodeDstRegister (flag : Nat) : Except InstructionError Register :=
  match flag with
  | 0 => .ok .Ap
  | 1 => .ok .Fp
  | _ => .error .InvalidDstRegister

/-- The `switch (op0RegisterFlag)` of decodeInstruction: 0 is Ap, 1 is Fp,
anything else raises InvalidOp0Register. -/
def decodeOp0Register (flag : Nat) : Except InstructionError Register :=
  match flag with
  | 0 => .ok .Ap
  | 1 => .ok .Fp
  | _ => .error .InvalidOp0Register

/-- The `switch (op1RegisterFlag)` of decodeInstruction: 0 is Op0, 1 is Pc,
2 is Fp, 4 is Ap, anything else raises InvalidOp1Register. -/
def decodeOp1Register (flag : Nat) : Except InstructionError Op1Src :=
  match flag with
  | 0 => .ok .Op0
  | 1 => .ok .Pc
  | 2 => .ok .Fp
  | 4 => .ok .Ap
  | _ => .error .InvalidOp1Register

/-- The `switch (pcUpdateFlag)` of decodeInstruction: 0 is Regular, 1 is
Jump, 2 is JumpRel, 4 is Jnz, anything else raises InvalidPcUpdate. -/
def decodePcUpdate (flag : Nat) : Except InstructionError PcUpdate :=
  match flag with
  | 0 => .ok .Regular
  | 1 => .ok .Jump
  | 2 => .ok .JumpRel
  | 4 => .ok .Jnz
  | _ => .error .InvalidPcUpdate

/-- The `switch (resLogicFlag)` of decodeInstruction: 0 is Unused when
pcUpdate is Jnz and Op1 otherwise, 1 is Add, 2 is Mul, anything else raises
InvalidResLogic. -/
def decodeResLogic (flag : Nat) (pcUpdate : PcUpdate) : Except InstructionError ResLogic :=
  match flag with
  | 0 => .ok (if pcUpdate = PcUpdate.Jnz then .Unused else .Op1)
  | 1 => .ok .Add
  | 2 => .ok .Mul
  | _ => .error .InvalidResLogic

/-- The `switch (opcodeFlag)` of decodeInstruction: 0 is NoOp, 1 is Call,
2 is Ret, 4 is AssertEq, anything else raises InvalidOpcode. -/
def decodeOpcode (flag : Nat) : Except InstructionError Opcode :=
  match flag with
  | 0 => .ok .NoOp
  | 1 => .ok .Call
  | 2 => .ok .Ret
  | 4 => .ok .AssertEq
  | _ => .error .InvalidOpcode

/-- The `switch (apUpdateFlag)` of decodeInstruction: 0 is Add2 when the
opcode is Call and Ap otherwise, 1 is AddRes, 2 is Add1, anything else
raises InvalidApUpdate. -/
def decodeApUpdate (flag : Nat) (opcode : Opcode) : Except InstructionError ApUpdate :=
  match flag with
  | 0 => .ok (if opcode = Opcode.Call then .Add2 else .Ap)
  | 1 => .ok .AddRes
  | 2 => .ok .Add1
  | _ => .error .InvalidApUpdate

/-- The final `switch (opcode)` of decodeInstruction deriving fpUpdate:
Call is ApPlus2, Ret is Dst, everything else is Fp. -/
def deriveFpUpdate (opcode : Opcode) : FpUpdate :=
  match opcode with
  | .Call => .ApPlus2
  | .Ret => .Dst
  | _ => .Fp

/-- `Instruction.decodeInstruction` of instruction.ts: reject a set high bit,
split off the three biased offsets and the seven flag fields, decode each
flag field through its switch (in source order), derive fpUpdate, and build
the Instruction. -/
def decodeInstruction (encodedInstruction : Nat) : Except InstructionError Instruction :=
  if encodedInstruction >>> 63 ≠ 0 then
    .error .HighBitSetError
  else
    let dstOffset := Instruction.fromBiased (encodedInstruction &&& 0xffff)
    let op0Offset := Instruction.fromBiased ((encodedInstruction >>> 16) &&& 0xffff)
    let op1Offset := Instruction.fromBiased ((encodedInstruction >>> 32) &&& 0xffff)
    do
    let dstRegister ← decodeDstRegister (dstRegisterFlag encodedInstruction)
    let op0Register ← decodeOp0Register (op0RegisterFlag encodedInstruction)
    let op1Register ← decodeOp1Register (op1RegisterFlag encodedInstruction)
    let pcUpdate ← decodePcUpdate (pcUpdateFlag encodedInstruction)
    let resLogic ← decodeResLogic (resLogicFlag encodedInstruction) pcUpdate
    let opcode ← decodeOpcode (opcodeFlag encodedInstruction)
    let apUpdate ← decodeApUpdate (apUpdateFlag encodedInstruction) opcode
    let fpUpdate := deriveFpUpdate opcode
    return Instruction.mk dstOffset op0Offset op1Offset dstRegister op0Register
      op1Register resLogic pcUpdate apUpdate fpUpdate opcode

/-- `Instruction.size()`: 2 when op1 comes from Pc (an immediate follows),
else 1. -/
def Instruction.size (i : Instruction) : Nat :=
  if i.op1Register = Op1Src.Pc then 2 else 1

theorem bind_ok_eval {ε α β : Type} (a : α) (f : α → Except ε β) :
    ((Except.ok a : Except ε α) >>= f) = f a := rfl

theorem bind_error_eval {ε α β : Type} (e : ε) (f : α → Except ε β) :
    ((Except.error e : Except ε α) >>= f) = Except.error e := rfl

theorem pure_eval {ε α : Type} (a : α) :
    (pure a : Except ε α) = Except.ok a := rfl

theorem dstRegisterFlag_lt (w : Nat) : dstRegisterFlag w < 2 := by
  unfold dstRegisterFlag
  rw [Nat.and_one_is_mod]
  exact Nat.mod_lt _ (by omega)

theorem op0RegisterFlag_lt (w : Nat) : op0RegisterFlag w < 2 := by
  unfold op0RegisterFlag
  rw [Nat.and_one_is_mod]
  exact Nat.mod_lt _ (by omega)

theorem op1RegisterFlag_lt (w : Nat) : op1RegisterFlag w < 8 := by
  unfold op1RegisterFlag
  have h : (0b111 : Nat) < 2 ^ 3 := by norm_num
  exact Nat.and_lt_two_pow _ h

theorem resLogicFlag_lt (w : Nat) : resLogicFlag w < 4 := by
  unfold resLogicFlag
  have h : (0b11 : Nat) < 2 ^ 2 := by norm_num
  exact Nat.and_lt_two_pow _ h

theorem pcUpdateFlag_lt (w : Nat) : pcUpdateFlag w < 8 := by
  unfold pcUpdateFlag
  have h : (0b111 : Nat) < 2 ^ 3 := by norm_num
  exact Nat.and_lt_two_pow _ h

theorem apUpdateFlag_lt (w : Nat) : apUpdateFlag w < 4 := by
  unfold apUpdateFlag
  have h : (0b11 : Nat) < 2 ^ 2 := by norm_num
  exact Nat.and_lt_two_pow _ h

theorem opcodeFlag_lt (w : Nat) : opcodeFlag w < 8 := by
  unfold opcodeFlag
  have h : (0b111 : Nat) < 2 ^ 3 := by norm_num
  exact Nat.and_lt_two_pow _ h

theorem decodeInstruction_eq_of_low (w : Nat) (h0 : w >>> 63 = 0) :
    decodeInstruction w =
      (do
        let dstRegister ← decodeDstRegister (dstRegisterFlag w)
        let op0Register ← decodeOp0Register (op0RegisterFlag w)
        let op1Register ← decodeOp1Register (op1RegisterFlag w)
        let pcUpdate ← decodePcUpdate (pcUpdateFlag w)
        let resLogic ← decodeResLogic (resLogicFlag w) pcUpdate
        let opcode ← decodeOpcode (opcodeFlag w)
        let apUpdate ← decodeApUpdate (apUpdateFlag w) opcode
        return Instruction.mk (Instruction.fromBiased (w &&& 0xffff))
          (Instruction.fromBiased ((w >>> 16) &&& 0xffff))
          (Instruction.fromBiased ((w >>> 32) &&& 0xffff))
          dstRegister op0Register op1Register resLogic pcUpdate apUpdate
          (deriveFpUpdate opcode) opcode) := by
  unfold decodeInstruction
  rw [if_neg (not_not_intro h0)]

theorem decodeInstruction_ok_iff (w : Nat) (i : Instruction) :
    decodeInstruction w = .ok i ↔
      (w >>> 63 = 0 ∧
       decodeDstRegister (dstRegisterFlag w) = .ok i.dstRegister ∧
       decodeOp0Register (op0RegisterFlag w) = .ok i.op0Register ∧
       decodeOp1Register (op1RegisterFlag w) = .ok i.op1Register ∧
       decodePcUpdate (pcUpdateFlag w) = .ok i.pcUpdate ∧
       decodeResLogic (resLogicFlag w) i.pcUpdate = .ok i.resLogic ∧
       decodeOpcode (opcodeFlag w) = .ok i.opcode ∧
       decodeApUpdate (apUpdateFlag w) i.opcode = .ok i.apUpdate ∧
       i.fpUpdate = deriveFpUpdate i.opcode ∧
       i.dstOffset = Instruction.fromBiased (w &&& 0xffff) ∧
       i.op0Offset = Instruction.fromBiased ((w >>> 16) &&& 0xffff) ∧
       i.op1Offset = Instruction.fromBiased ((w >>> 32) &&& 0xffff)) := by
  constructor
  · intro h
    have h0 : w >>> 63 = 0 := by
      by_contra hc
      unfold decodeInstruction at h
      rw [if_pos hc] at h
      exact Except.noConfusion h
    rw [decodeInstruction_eq_of_low w h0] at h
    rcases h1 : decodeDstRegister (dstRegisterFlag w) with e1 | r1 <;> rw [h1] at h
    · rw [bind_error_eval] at h
      exact Except.noConfusion h
    rw [bind_ok_eval] at h
    rcases h2 : decodeOp0Register (op0RegisterFlag w) with e2 | r2 <;> rw [h2] at h
    · rw [bind_error_eval] at h
      exact Except.noConfusion h
    rw [bind_ok_eval] at h
    rcases h3 : decodeOp1Register (op1RegisterFlag w) with e3 | r3 <;> rw [h3] at h
    · rw [bind_error_eval] at h
      exact Except.noConfusion h
    rw [bind_ok_eval] at h
    rcases h4 : decodePcUpdate (pcUpdateFlag w) with e4 | r4 <;> rw [h4] at h
    · rw [bind_error_eval] at h
      exact Except.noConfusion h
    rw [bind_ok_eval] at h
    rcases h5 : decodeResLogic (resLogicFlag w) r4 with e5 | r5 <;> rw [h5] at h
    · rw [bind_error_eval] at h
      exact Except.noConfusion h
    rw [bind_ok_eval] at h
    rcases h6 : decodeOpcode (opcodeFlag w) with e6 | r6 <;> rw [h6] at h
    · rw [bind_error_eval] at h
      exact Except.noConfusion h
    rw [bind_ok_eval] at h
    rcases h7 : decodeApUpdate (apUpdateFlag w) r6 with e7 | r7 <;> rw [h7] at h
    · rw [bind_error_eval] at h
      exact Except.noConfusion h
    rw [bind_ok_eval, pure_eval] at h
    injection h with h'
    subst h'
    exact ⟨h0, rfl, rfl, rfl, rfl, h5, rfl, h7, rfl, rfl, rfl, rfl⟩
  · rintro ⟨h0, h1, h2, h3, h4, h5, h6, h7, hfp, hd, ho0, ho1⟩
    rw [decodeInstruction_eq_of_low w h0, h1, bind_ok_eval, h2, bind_ok_eval, h3,
      bind_ok_eval, h4, bind_ok_eval, h5, bind_ok_eval, h6, bind_ok_eval, h7,
      bind_ok_eval, pure_eval, ← hd, ← ho0, ← ho1, ← hfp]

theorem decodeDstRegister_ok_of_lt (f : Nat) (h : f < 2) :
    ∃ r, decodeDstRegister f = .ok r := by
  interval_cases f
  · exact ⟨.Ap, rfl⟩
  · exact ⟨.Fp, rfl⟩

theorem decodeOp0Register_ok_of_lt (f : Nat) (h : f < 2) :
    ∃ r, decodeOp0Register f = .ok r := by
  interval_cases f
  · exact ⟨.Ap, rfl⟩
  · exact ⟨.Fp, rfl⟩

theorem decodeOp1Register_error (f : Nat) (e : InstructionError)
    (h : decodeOp1Register f = .error e) : e = .InvalidOp1Register := by
  unfold decodeOp1Register at h
  split at h <;> first
    | exact Except.noConfusion h
    | (injection h with h'; exact h'.symm)

theorem decodePcUpdate_error (f : Nat) (e : InstructionError)
    (h : decodePcUpdate f = .error e) : e = .InvalidPcUpdate := by
  unfold decodePcUpdate at h
  split at h <;> first
    | exact Except.noConfusion h
    | (injection h with h'; exact h'.symm)

theorem decodeResLogic_error (f : Nat) (p : PcUpdate) (e : InstructionError)
    (h : decodeResLogic f p = .error e) : e = .InvalidResLogic := by
  unfold decodeResLogic at h
  split at h <;> first
    | exact Except.noConfusion h
    | (injection h with h'; exact h'.symm)

theorem decodeOpcode_error (f : Nat) (e : InstructionError)
    (h : decodeOpcode f = .error e) : e = .InvalidOpcode := by
  unfold decodeOpcode at h
  split at h <;> first
    | exact Except.noConfusion h
    | (injection h with h'; exact h'.symm)

theorem decodeApUpdate_error (f : Nat) (c : Opcode) (e : InstructionError)
    (h : decodeApUpdate f c = .error e) : e = .InvalidApUpdate := by
  unfold decodeApUpdate at h
  split at h <;> first
    | exact Except.noConfusion h
    | (injection h with h'; exact h'.symm)

theorem bitwiseGet_and (t : Segment) (o : Nat) (xf yf : Felt)
    (h5 : o % 5 = 2)
    (hx : t.read (o - 2) = some (.felt xf))
    (hy : t.read (o - 2 + 1) = some (.felt yf)) :
    bitwiseGet t o =
      .ok (t.write o (.felt (Felt.ofBigInt (xf.toBigInt &&& yf.toBigInt))),
           some (.felt (Felt.ofBigInt (xf.toBigInt &&& yf.toBigInt)))) := by
  simp only [bitwiseGet, h5]
  rw [if_neg (by omega), hx, hy]
  simp only []
  rw [Segment.read_write_self]

theorem bitwiseGet_xor (t : Segment) (o : Nat) (xf yf : Felt)
    (h5 : o % 5 = 3)
    (hx : t.read (o - 3) = some (.felt xf))
    (hy : t.read (o - 3 + 1) = some (.felt yf)) :
    bitwiseGet t o =
      .ok (t.write o (.felt (Felt.ofBigInt (xf.toBigInt ^^^ yf.toBigInt))),
           some (.felt (Felt.ofBigInt (xf.toBigInt ^^^ yf.toBigInt)))) := by
  simp only [bitwiseGet, h5]
  rw [if_neg (by omega), hx, hy]
  simp only []
  rw [Segment.read_write_self]

theorem bitwiseGet_or (t : Segment) (o : Nat) (xf yf : Felt)
    (h5 : o % 5 = 4)
    (hx : t.read (o - 4) = some (.felt xf))
    (hy : t.read (o - 4 + 1) = some (.felt yf)) :
    bitwiseGet t o =
      .ok (t.write o (.felt (Felt.ofBigInt (xf.toBigInt ||| yf.toBigInt))),
           some (.felt (Felt.ofBigInt (xf.toBigInt ||| yf.toBigInt)))) := by
  simp only [bitwiseGet, h5]
  rw [if_neg (by omega), hx, hy]
  simp only []
  rw [Segment.read_write_self]

theorem bitwiseGet_ok_inputs (t : Segment) (o : Nat)
    (p : Segment × Option SegmentValue)
    (h5 : 2 ≤ o % 5) (h : bitwiseGet t o = .ok p) :
    ∃ xf yf, t.read (o - o % 5) = some (.felt xf) ∧
      t.read (o - o % 5 + 1) = some (.felt yf) := by
  simp only [bitwiseGet] at h
  rw [if_neg (by omega)] at h
  cases hx : t.read (o - o % 5) with
  | none => rw [hx] at h; exact Except.noConfusion h
  | some xValue =>
    rw [hx] at h
    cases xValue with
    | rel r => exact Except.noConfusion h
    | felt xf =>
      cases hy : t.read (o - o % 5 + 1) with
      | none => rw [hy] at h; exact Except.noConfusion h
      | some yValue =>
        rw [hy] at h
        cases yValue with
        | rel r => exact Except.noConfusion h
        | felt yf => exact ⟨xf, yf, rfl, rfl⟩

theorem bitwise_memo_general (t t1 : Segment) (o k : Nat)
    (v : Option SegmentValue) (xf yf val : Felt) (hm : o % 5 = k) (hk : 2 ≤ k)
    (fwd : ∀ s : Segment, s.read (o - k) = some (.felt xf) →
      s.read (o - k + 1) = some (.felt yf) →
      bitwiseGet s o = .ok (s.write o (.felt val), some (.felt val)))
    (hx : t.read (o - k) = some (.felt xf))
    (hy : t.read (o - k + 1) = some (.felt yf))
    (h : bitwiseGet t o = .ok (t1, v)) :
    (∃ f : Felt, v = some (.felt f) ∧ t1.read o = some (.felt f)) ∧
    bitwiseGet t1 o = .ok (t1, v) := by
  have hfwd := fwd t hx hy
  rw [h] at hfwd
  injection hfwd with hp
  injection hp with ht1 hv
  subst ht1
  subst hv
  have hx' : (t.write o (.felt val)).read (o - k) = some (.felt xf) := by
    rw [Segment.read_write_ne _ _ _ _ (by omega)]
    exact hx
  have hy' : (t.write o (.felt val)).read (o - k + 1) = some (.felt yf) := by
    rw [Segment.read_write_ne _ _ _ _ (by omega)]
    exact hy
  have h2 := fwd (t.write o (.felt val)) hx' hy'
  rw [Segment.write_cancel _ _ _ (Segment.read_write_self t o _)] at h2
  exact ⟨⟨val, rfl, Segment.read_write_self t o _⟩, h2⟩

/-- C2: for every bitwise block whose input cells at block-relative offsets 0
and 1 hold Felts x and y, reading the output cells at block-relative offsets
2, 3 and 4 returns `new Felt(x AND y)`, `new Felt(x XOR y)` and
`new Felt(x OR y)` on the canonical integer representatives, storing the
result at the read offset; in particular with cell 0 = Felt 0b1100 and
cell 1 = Felt 0b1010, reads of cells 2, 3, 4 return Felt 0b1000, Felt 0b0110
and Felt 0b1110. -/
theorem claim_C2_bitwise_outputs :
    (∀ (t : Segment) (o : Nat) (xf yf : Felt),
      o % 5 = 2 → t.read (o - 2) = some (.felt xf) →
      t.read (o - 2 + 1) = some (.felt yf) →
      bitwiseGet t o =
        .ok (t.write o (.felt (Felt.ofBigInt (xf.toBigInt &&& yf.toBigInt))),
             some (.felt (Felt.ofBigInt (xf.toBigInt &&& yf.toBigInt))))) ∧
    (∀ (t : Segment) (o : Nat) (xf yf : Felt),
      o % 5 = 3 → t.read (o - 3) = some (.felt xf) →
      t.read (o - 3 + 1) = some (.felt yf) →
      bitwiseGet t o =
        .ok (t.write o (.felt (Felt.ofBigInt (xf.toBigInt ^^^ yf.toBigInt))),
             some (.felt (Felt.ofBigInt (xf.toBigInt ^^^ yf.toBigInt))))) ∧
    (∀ (t : Segment) (o : Nat) (xf yf : Felt),
      o % 5 = 4 → t.read (o - 4) = some (.felt xf) →
      t.read (o - 4 + 1) = some (.felt yf) →
      bitwiseGet t o =
        .ok (t.write o (.felt (Felt.ofBigInt (xf.toBigInt ||| yf.toBigInt))),
             some (.felt (Felt.ofBigInt (xf.toBigInt ||| yf.toBigInt))))) ∧
    bitwiseGet [some (.felt ⟨0b1100⟩), some (.felt ⟨0b1010⟩)] 2 =
      .ok ([some (.felt ⟨0b1100⟩), some (.felt ⟨0b1010⟩), some (.felt ⟨0b1000⟩)],
           some (.felt ⟨0b1000⟩)) ∧
    bitwiseGet [some (.felt ⟨0b1100⟩), some (.felt ⟨0b1010⟩)] 3 =
      .ok ([some (.felt ⟨0b1100⟩), some (.felt ⟨0b1010⟩), none, some (.felt ⟨0b0110⟩)],
           some (.felt ⟨0b0110⟩)) ∧
    bitwiseGet [some (.felt ⟨0b1100⟩), some (.felt ⟨0b1010⟩)] 4 =
      .ok ([some (.felt ⟨0b1100⟩), some (.felt ⟨0b1010⟩), none, none, some (.felt ⟨0b1110⟩)],
           some (.felt ⟨0b1110⟩)) :=
  ⟨fun t o xf yf h5 hx hy => bitwiseGet_and t o xf yf h5 hx hy,
   fun t o xf yf h5 hx hy => bitwiseGet_xor t o xf yf h5 hx hy,
   fun t o xf yf h5 hx hy => bitwiseGet_or t o xf yf h5 hx hy,
   by decide, by decide, by decide⟩

/-- Witness for C2 at the concrete block of the spec scenario. -/
theorem claim_C2_bitwise_outputs_witness :
    (2 % 5 = 2) ∧
    Segment.read [some (.felt ⟨12⟩), some (.felt ⟨10⟩)] (2 - 2) = some (.felt ⟨12⟩) ∧
    bitwiseGet [some (.felt ⟨12⟩), some (.felt ⟨10⟩)] 2 =
      .ok (Segment.write [some (.felt ⟨12⟩), some (.felt ⟨10⟩)] 2
             (.felt (Felt.ofBigInt ((Felt.mk 12).toBigInt &&& (Felt.mk 10).toBigInt))),
           some (.felt (Felt.ofBigInt ((Felt.mk 12).toBigInt &&& (Felt.mk 10).toBigInt)))) :=
  ⟨by decide, by decide,
   claim_C2_bitwise_outputs.1 [some (.felt ⟨12⟩), some (.felt ⟨10⟩)] 2 ⟨12⟩ ⟨10⟩
     (by decide) (by decide) (by decide)⟩

/-- C1 counterexample: with inputs Felt 12 and Felt 10 and the output cell at
offset 2 already assigned Felt 999 (different from the computed Felt 8), the
read succeeds, returns the computed Felt 8, and overwrites the cell in the
storage — it does not raise InconsistentMemory. -/
theorem claim_C1_counterexample :
    bitwiseGet [some (.felt ⟨12⟩), some (.felt ⟨10⟩), some (.felt ⟨999⟩)] 2 =
      .ok ([some (.felt ⟨12⟩), some (.felt ⟨10⟩), some (.felt ⟨8⟩)],
           some (.felt ⟨8⟩)) ∧
    bitwiseGet [some (.felt ⟨12⟩), some (.felt ⟨10⟩), some (.felt ⟨999⟩)] 2 ≠
      .error (.InconsistentMemory 2 (.felt ⟨999⟩) (.felt ⟨8⟩)) :=
  ⟨by decide, by decide⟩

/-- C1 (amended): for every bitwise builtin read of an output cell at
absolute offset o whose block input cells hold Felts, the computed result is
assigned directly into the segment at o — overwriting any value already
there, with no error raised by the read — and the computed Felt is returned;
the write-once consistency lives in the memory insert path instead: a direct
write to an output cell succeeds exactly when the value equals the would-be
computed value, and otherwise raises InconsistentMemory. -/
theorem claim_C1_amended :
    (∀ (t : Segment) (o : Nat) (xf yf : Felt) (v0 : SegmentValue),
      2 ≤ o % 5 →
      t.read (o - o % 5) = some (.felt xf) →
      t.read (o - o % 5 + 1) = some (.felt yf) →
      t.read o = some v0 →
      ∃ res : Felt,
        bitwiseGet t o = .ok (t.write o (.felt res), some (.felt res))) ∧
    (∀ (t t1 : Segment) (o : Nat) (w v : SegmentValue),
      bitwiseGet t o = .ok (t1, some w) →
      (v ≠ w → memoryInsert t o v = .error (.InconsistentMemory o w v)) ∧
      (v = w → memoryInsert t o v = .ok (t1.write o v))) := by
  constructor
  · intro t o xf yf v0 h5 hx hy hprev
    have ho5 : o % 5 = 2 ∨ o % 5 = 3 ∨ o % 5 = 4 := by omega
    rcases ho5 with hm | hm | hm <;> rw [hm] at hx hy
    · exact ⟨_, bitwiseGet_and t o xf yf hm hx hy⟩
    · exact ⟨_, bitwiseGet_xor t o xf yf hm hx hy⟩
    · exact ⟨_, bitwiseGet_or t o xf yf hm hx hy⟩
  · intro t t1 o w v h
    unfold memoryInsert
    rw [h]
    simp only []
    constructor
    · intro hne
      rw [if_neg (fun he => hne he.symm)]
    · intro heq
      subst heq
      rw [if_pos rfl]

/-- Witness for C1: the amended read at the overwritten cell, and the
modelled write-once insert rejecting a direct write of Felt 9 where the
computed value is Felt 8. -/
theorem claim_C1_amended_witness :
    (∃ res : Felt,
      bitwiseGet [some (.felt ⟨12⟩), some (.felt ⟨10⟩), some (.felt ⟨999⟩)] 2 =
        .ok (Segment.write [some (.felt ⟨12⟩), some (.felt ⟨10⟩), some (.felt ⟨999⟩)] 2
               (.felt res), some (.felt res))) ∧
    memoryInsert [some (.felt ⟨12⟩), some (.felt ⟨10⟩)] 2 (.felt ⟨9⟩) =
      .error (.InconsistentMemory 2 (.felt ⟨8⟩) (.felt ⟨9⟩)) :=
  ⟨claim_C1_amended.1 [some (.felt ⟨12⟩), some (.felt ⟨10⟩), some (.felt ⟨999⟩)] 2
     ⟨12⟩ ⟨10⟩ (.felt ⟨999⟩) (by decide) (by decide) (by decide) (by decide),
   (claim_C1_amended.2 [some (.felt ⟨12⟩), some (.felt ⟨10⟩)]
     [some (.felt ⟨12⟩), some (.felt ⟨10⟩), some (.felt ⟨8⟩)] 2
     (.felt ⟨8⟩) (.felt ⟨9⟩) (by decide)).1 (by decide)⟩

/-- C6: reading a bitwise output cell is memoizing and idempotent — after
one successful read of an output cell the computed Felt is stored in the
underlying segment at that offset, and reading the same cell again (the
input cells being untouched by the first read) returns the very same Felt
and leaves the segment unchanged. -/
theorem claim_C6_memoizing (t t1 : Segment) (o : Nat) (v : Option SegmentValue)
    (h5 : 2 ≤ o % 5) (h : bitwiseGet t o = .ok (t1, v)) :
    (∃ f : Felt, v = some (.felt f) ∧ t1.read o = some (.felt f)) ∧
    bitwiseGet t1 o = .ok (t1, v) := by
  obtain ⟨xf, yf, hx, hy⟩ := bitwiseGet_ok_inputs t o (t1, v) h5 h
  have ho5 : o % 5 = 2 ∨ o % 5 = 3 ∨ o % 5 = 4 := by omega
  rcases ho5 with hm | hm | hm <;> rw [hm] at hx hy
  · exact bitwise_memo_general t t1 o 2 v xf yf _ hm (by omega)
      (fun s hxs hys => bitwiseGet_and s o xf yf hm hxs hys) hx hy h
  · exact bitwise_memo_general t t1 o 3 v xf yf _ hm (by omega)
      (fun s hxs hys => bitwiseGet_xor s o xf yf hm hxs hys) hx hy h
  · exact bitwise_memo_general t t1 o 4 v xf yf _ hm (by omega)
      (fun s hxs hys => bitwiseGet_or s o xf yf hm hxs hys) hx hy h

/-- Witness for C6 at the concrete block [Felt 12, Felt 10], output cell 2. -/
theorem claim_C6_memoizing_witness :
    (2 ≤ 2 % 5) ∧
    (∃ f : Felt, (some (SegmentValue.felt ⟨8⟩) : Option SegmentValue) = some (.felt f) ∧
      Segment.read [some (.felt ⟨12⟩), some (.felt ⟨10⟩), some (.felt ⟨8⟩)] 2 =
        some (.felt f)) ∧
    bitwiseGet [some (.felt ⟨12⟩), some (.felt ⟨10⟩), some (.felt ⟨8⟩)] 2 =
      .ok ([some (.felt ⟨12⟩), some (.felt ⟨10⟩), some (.felt ⟨8⟩)],
           some (.felt ⟨8⟩)) := by
  have h := claim_C6_memoizing [some (.felt ⟨12⟩), some (.felt ⟨10⟩)]
    [some (.felt ⟨12⟩), some (.felt ⟨10⟩), some (.felt ⟨8⟩)] 2
    (some (.felt ⟨8⟩)) (by decide) (by decide)
  exact ⟨by decide, h.1, h.2⟩

/-- C7: for every bitwise output-cell read, an unassigned input cell at
block-relative offset 0 or 1 raises UndefinedValue naming that input cell's
offset; an input cell holding a Relocatable raises ExpectedFelt (the first
input is checked before the second); and input cells themselves are read
directly from the underlying storage, unchanged, with no computation. -/
theorem claim_C7_input_errors :
    (∀ (t : Segment) (o : Nat), o % 5 < 2 →
      bitwiseGet t o = .ok (t, t.read o)) ∧
    (∀ (t : Segment) (o : Nat), 2 ≤ o % 5 →
      t.read (o - o % 5) = none →
      bitwiseGet t o = .error (.UndefinedValue (o - o % 5))) ∧
    (∀ (t : Segment) (o : Nat) (r : Relocatable), 2 ≤ o % 5 →
      t.read (o - o % 5) = some (.rel r) →
      bitwiseGet t o = .error .ExpectedFelt) ∧
    (∀ (t : Segment) (o : Nat) (xf : Felt), 2 ≤ o % 5 →
      t.read (o - o % 5) = some (.felt xf) →
      t.read (o - o % 5 + 1) = none →
      bitwiseGet t o = .error (.UndefinedValue (o - o % 5 + 1))) ∧
    (∀ (t : Segment) (o : Nat) (xf : Felt) (r : Relocatable), 2 ≤ o % 5 →
      t.read (o - o % 5) = some (.felt xf) →
      t.read (o - o % 5 + 1) = some (.rel r) →
      bitwiseGet t o = .error .ExpectedFelt) := by
  refine ⟨?_, ?_, ?_, ?_, ?_⟩
  · intro t o h5
    simp only [bitwiseGet]
    rw [if_pos h5]
  · intro t o h5 hx
    simp only [bitwiseGet]
    rw [if_neg (by omega), hx]
  · intro t o r h5 hx
    simp only [bitwiseGet]
    rw [if_neg (by omega), hx]
  · intro t o xf h5 hx hy
    simp only [bitwiseGet]
    rw [if_neg (by omega), hx]
    simp only []
    rw [hy]
  · intro t o xf r h5 hx hy
    simp only [bitwiseGet]
    rw [if_neg (by omega), hx]
    simp only []
    rw [hy]

/-- Witness for C7: reading output cell 2 of an empty segment raises
UndefinedValue 0, and reading cell 3 with a Relocatable in cell 0 raises
ExpectedFelt. -/
theorem claim_C7_input_errors_witness :
    (2 ≤ 2 % 5) ∧
    bitwiseGet ([] : Segment) 2 = .error (.UndefinedValue (2 - 2 % 5)) ∧
    bitwiseGet [some (.rel ⟨1, 7⟩)] 3 = .error .ExpectedFelt ∧
    bitwiseGet [some (.rel ⟨1, 7⟩)] 0 =
      .ok ([some (.rel ⟨1, 7⟩)], Segment.read [some (.rel ⟨1, 7⟩)] 0) :=
  ⟨by decide,
   claim_C7_input_errors.2.1 [] 2 (by decide) (by decide),
   claim_C7_input_errors.2.2.1 [some (.rel ⟨1, 7⟩)] 3 ⟨1, 7⟩ (by decide) (by decide),
   claim_C7_input_errors.1 [some (.rel ⟨1, 7⟩)] 0 (by decide)⟩

theorem shiftRight63_eq_zero_iff (w : Nat) : w >>> 63 = 0 ↔ w < 2 ^ 63 := by
  rw [Nat.shiftRight_eq_div_pow]
  constructor
  · intro h
    have hm := Nat.div_add_mod w (2 ^ 63)
    have hmod : w % 2 ^ 63 < 2 ^ 63 := Nat.mod_lt _ (by positivity)
    omega
  · intro h
    exact Nat.div_eq_of_lt h

theorem decodeResLogic_ok_of_ne (f : Nat) (hlt : f < 4) (hne : f ≠ 3)
    (p : PcUpdate) : ∃ r, decodeResLogic f p = .ok r := by
  interval_cases f
  · exact ⟨_, rfl⟩
  · exact ⟨_, rfl⟩
  · exact ⟨_, rfl⟩
  · exact absurd rfl hne

theorem decodeInstruction_error_mem (w : Nat) (h0 : w >>> 63 = 0)
    (e : InstructionError) (h : decodeInstruction w = .error e) :
    e = .InvalidOp1Register ∨ e = .InvalidPcUpdate ∨ e = .InvalidResLogic ∨
      e = .InvalidOpcode ∨ e = .InvalidApUpdate := by
  rw [decodeInstruction_eq_of_low w h0] at h
  obtain ⟨r1, h1⟩ := decodeDstRegister_ok_of_lt _ (dstRegisterFlag_lt w)
  rw [h1, bind_ok_eval] at h
  obtain ⟨r2, h2⟩ := decodeOp0Register_ok_of_lt _ (op0RegisterFlag_lt w)
  rw [h2, bind_ok_eval] at h
  rcases h3 : decodeOp1Register (op1RegisterFlag w) with e3 | r3 <;> rw [h3] at h
  · rw [bind_error_eval] at h
    injection h with he
    rw [← he]
    exact Or.inl (decodeOp1Register_error _ _ h3)
  rw [bind_ok_eval] at h
  rcases h4 : decodePcUpdate (pcUpdateFlag w) with e4 | r4 <;> rw [h4] at h
  · rw [bind_error_eval] at h
    injection h with he
    rw [← he]
    exact Or.inr (Or.inl (decodePcUpdate_error _ _ h4))
  rw [bind_ok_eval] at h
  rcases h5 : decodeResLogic (resLogicFlag w) r4 with e5 | r5 <;> rw [h5] at h
  · rw [bind_error_eval] at h
    injection h with he
    rw [← he]
    exact Or.inr (Or.inr (Or.inl (decodeResLogic_error _ _ _ h5)))
  rw [bind_ok_eval] at h
  rcases h6 : decodeOpcode (opcodeFlag w) with e6 | r6 <;> rw [h6] at h
  · rw [bind_error_eval] at h
    injection h with he
    rw [← he]
    exact Or.inr (Or.inr (Or.inr (Or.inl (decodeOpcode_error _ _ h6))))
  rw [bind_ok_eval] at h
  rcases h7 : decodeApUpdate (apUpdateFlag w) r6 with e7 | r7 <;> rw [h7] at h
  · rw [bind_error_eval] at h
    injection h with he
    rw [← he]
    exact Or.inr (Or.inr (Or.inr (Or.inr (decodeApUpdate_error _ _ _ h7))))
  rw [bind_ok_eval, pure_eval] at h
  exact Except.noConfusion h

/-- C5: decodeInstruction raises HighBitSet exactly on words with bit 63 and
above set — the error occurs iff w is at least 2^63 — and every word the
decoder accepts is below 2^63. -/
theorem claim_C5_highBit (w : Nat) :
    (decodeInstruction w = .error .HighBitSetError ↔ 2 ^ 63 ≤ w) ∧
    (∀ i : Instruction, decodeInstruction w = .ok i → w < 2 ^ 63) := by
  constructor
  · constructor
    · intro hC
      by_contra hlt
      have h0 : w >>> 63 = 0 := (shiftRight63_eq_zero_iff w).mpr (by omega)
      rcases decodeInstruction_error_mem w h0 _ hC with h | h | h | h | h <;>
        exact InstructionError.noConfusion h
    · intro hge
      have hne : w >>> 63 ≠ 0 := fun hc => by
        have := (shiftRight63_eq_zero_iff w).mp hc
        omega
      unfold decodeInstruction
      rw [if_pos hne]
  · intro i hi
    by_contra hge
    have hne : w >>> 63 ≠ 0 := fun hc => by
      have := (shiftRight63_eq_zero_iff w).mp hc
      omega
    unfold decodeInstruction at hi
    rw [if_pos hne] at hi
    exact Except.noConfusion hi

/-- Witness for C5: the word 1 <<< 63 raises HighBitSet, and the word 0 is
decoded successfully, hence below 2^63. -/
theorem claim_C5_highBit_witness :
    decodeInstruction (1 <<< 63) = .error .HighBitSetError ∧ (0 : Nat) < 2 ^ 63 :=
  ⟨(claim_C5_highBit (1 <<< 63)).1.mpr (by decide),
   (claim_C5_highBit 0).2
     (Instruction.mk (-32768) (-32768) (-32768) .Ap .Ap .Op0 .Op1 .Regular .Ap .Fp .NoOp)
     (by decide)⟩

/-- C3: on a word below 2^63 whose ap_update flag field (bits 10..11 of the
flags) is 0 the decoder sets apUpdate to Add2 when the decoded opcode is
Call and to Ap otherwise; and when that field is 3 and the earlier checked
fields (op1_src, pc_update, res_logic, opcode) are valid, decoding raises
InvalidApUpdate. -/
theorem claim_C3_apUpdate (w : Nat) (hw : w < 2 ^ 63) :
    (∀ i : Instruction, decodeInstruction w = .ok i → apUpdateFlag w = 0 →
      i.apUpdate = if i.opcode = Opcode.Call then ApUpdate.Add2 else ApUpdate.Ap) ∧
    (apUpdateFlag w = 3 →
      (∃ s, decodeOp1Register (op1RegisterFlag w) = .ok s) →
      (∃ p, decodePcUpdate (pcUpdateFlag w) = .ok p) →
      resLogicFlag w ≠ 3 →
      (∃ c, decodeOpcode (opcodeFlag w) = .ok c) →
      decodeInstruction w = .error .InvalidApUpdate) := by
  constructor
  · intro i hi hap
    have h8 := ((decodeInstruction_ok_iff w i).mp hi).2.2.2.2.2.2.2.1
    rw [hap] at h8
    have hred : decodeApUpdate 0 i.opcode =
        .ok (if i.opcode = Opcode.Call then ApUpdate.Add2 else ApUpdate.Ap) := rfl
    rw [hred] at h8
    injection h8 with h'
    exact h'.symm
  · rintro hap ⟨s, h3⟩ ⟨p, h4⟩ hres ⟨c, h6⟩
    have h0 : w >>> 63 = 0 := (shiftRight63_eq_zero_iff w).mpr hw
    obtain ⟨r1, h1⟩ := decodeDstRegister_ok_of_lt _ (dstRegisterFlag_lt w)
    obtain ⟨r2, h2⟩ := decodeOp0Register_ok_of_lt _ (op0RegisterFlag_lt w)
    obtain ⟨r5, h5⟩ := decodeResLogic_ok_of_ne (resLogicFlag w) (resLogicFlag_lt w) hres p
    rw [decodeInstruction_eq_of_low w h0, h1, bind_ok_eval, h2, bind_ok_eval,
      h3, bind_ok_eval, h4, bind_ok_eval, h5, bind_ok_eval, h6, bind_ok_eval, hap]
    rfl

/-- Witness for C3: the word with only the ap_update field set to 3 raises
InvalidApUpdate, and the all-zero word decodes with apUpdate = Ap, opcode =
NoOp. -/
theorem claim_C3_apUpdate_witness :
    decodeInstruction (3 <<< 58) = .error .InvalidApUpdate ∧
    (Instruction.mk (-32768) (-32768) (-32768) .Ap .Ap .Op0 .Op1 .Regular .Ap
        .Fp .NoOp).apUpdate =
      (if (Instruction.mk (-32768) (-32768) (-32768) .Ap .Ap .Op0 .Op1 .Regular
          .Ap .Fp .NoOp).opcode = Opcode.Call then ApUpdate.Add2 else ApUpdate.Ap) :=
  ⟨(claim_C3_apUpdate (3 <<< 58) (by decide)).2 (by decide) ⟨.Op0, by decide⟩
     ⟨.Regular, by decide⟩ (by decide) ⟨.NoOp, by decide⟩,
   (claim_C3_apUpdate 0 (by decide)).1
     (Instruction.mk (-32768) (-32768) (-32768) .Ap .Ap .Op0 .Op1 .Regular .Ap
       .Fp .NoOp) (by decide) (by decide)⟩

/-- C4: on a word below 2^63 the res_logic flag field (bits 5..6 of the
flags) decodes as: 0 yields Unused when the decoded pc_update is Jnz and Op1
otherwise; 1 yields Add; 2 yields Mul; and 3 raises InvalidResLogic once the
earlier checked fields (op1_src, pc_update) are valid. -/
theorem claim_C4_resLogic (w : Nat) (hw : w < 2 ^ 63) :
    (∀ i : Instruction, decodeInstruction w = .ok i →
      (resLogicFlag w = 0 →
        i.resLogic = if i.pcUpdate = PcUpdate.Jnz then ResLogic.Unused else ResLogic.Op1) ∧
      (resLogicFlag w = 1 → i.resLogic = ResLogic.Add) ∧
      (resLogicFlag w = 2 → i.resLogic = ResLogic.Mul)) ∧
    (resLogicFlag w = 3 →
      (∃ s, decodeOp1Register (op1RegisterFlag w) = .ok s) →
      (∃ p, decodePcUpdate (pcUpdateFlag w) = .ok p) →
      decodeInstruction w = .error .InvalidResLogic) := by
  constructor
  · intro i hi
    have h6 := ((decodeInstruction_ok_iff w i).mp hi).2.2.2.2.2.1
    refine ⟨?_, ?_, ?_⟩ <;> intro hf <;> rw [hf] at h6
    · have hred : decodeResLogic 0 i.pcUpdate =
          .ok (if i.pcUpdate = PcUpdate.Jnz then ResLogic.Unused else ResLogic.Op1) := rfl
      rw [hred] at h6
      injection h6 with h'
      exact h'.symm
    · injection h6 with h'
      exact h'.symm
    · injection h6 with h'
      exact h'.symm
  · rintro hres ⟨s, h3⟩ ⟨p, h4⟩
    have h0 : w >>> 63 = 0 := (shiftRight63_eq_zero_iff w).mpr hw
    obtain ⟨r1, h1⟩ := decodeDstRegister_ok_of_lt _ (dstRegisterFlag_lt w)
    obtain ⟨r2, h2⟩ := decodeOp0Register_ok_of_lt _ (op0RegisterFlag_lt w)
    rw [decodeInstruction_eq_of_low w h0, h1, bind_ok_eval, h2, bind_ok_eval,
      h3, bind_ok_eval, h4, bind_ok_eval, hres]
    rfl

/-- Witness for C4: the word with only the res_logic field set to 3 raises
InvalidResLogic, and the all-zero word decodes with resLogic = Op1 (since
its pc_update is Regular, not Jnz). -/
theorem claim_C4_resLogic_witness :
    decodeInstruction (3 <<< 53) = .error .InvalidResLogic ∧
    (Instruction.mk (-32768) (-32768) (-32768) .Ap .Ap .Op0 .Op1 .Regular .Ap
        .Fp .NoOp).resLogic =
      (if (Instruction.mk (-32768) (-32768) (-32768) .Ap .Ap .Op0 .Op1 .Regular
          .Ap .Fp .NoOp).pcUpdate = PcUpdate.Jnz then ResLogic.Unused else ResLogic.Op1) :=
  ⟨(claim_C4_resLogic (3 <<< 53) (by decide)).2 (by decide) ⟨.Op0, by decide⟩
     ⟨.Regular, by decide⟩,
   ((claim_C4_resLogic 0 (by decide)).1
     (Instruction.mk (-32768) (-32768) (-32768) .Ap .Ap .Op0 .Op1 .Regular .Ap
       .Fp .NoOp) (by decide)).1 (by decide)⟩

/-- C8: on a word below 2^63 the op1_src flag field (bits 2..4 of the flags)
decodes as 0 to Op0, 1 to Pc, 2 to Fp and 4 to Ap, and every other value
(3, 5, 6, 7) raises InvalidOp1Register (the spec's InvalidOp1Src), this
field being the first fallible check after the high bit. -/
theorem claim_C8_op1Src (w : Nat) (hw : w < 2 ^ 63) :
    (∀ i : Instruction, decodeInstruction w = .ok i →
      (op1RegisterFlag w = 0 → i.op1Register = Op1Src.Op0) ∧
      (op1RegisterFlag w = 1 → i.op1Register = Op1Src.Pc) ∧
      (op1RegisterFlag w = 2 → i.op1Register = Op1Src.Fp) ∧
      (op1RegisterFlag w = 4 → i.op1Register = Op1Src.Ap)) ∧
    (op1RegisterFlag w = 3 ∨ op1RegisterFlag w = 5 ∨ op1RegisterFlag w = 6 ∨
        op1RegisterFlag w = 7 →
      decodeInstruction w = .error .InvalidOp1Register) := by
  constructor
  · intro i hi
    have h3 := ((decodeInstruction_ok_iff w i).mp hi).2.2.2.1
    refine ⟨?_, ?_, ?_, ?_⟩ <;> intro hf <;> rw [hf] at h3 <;>
      injection h3 with h' <;> exact h'.symm
  · intro hf
    have h0 : w >>> 63 = 0 := (shiftRight63_eq_zero_iff w).mpr hw
    obtain ⟨r1, h1⟩ := decodeDstRegister_ok_of_lt _ (dstRegisterFlag_lt w)
    obtain ⟨r2, h2⟩ := decodeOp0Register_ok_of_lt _ (op0RegisterFlag_lt w)
    rw [decodeInstruction_eq_of_low w h0, h1, bind_ok_eval, h2, bind_ok_eval]
    rcases hf with hf | hf | hf | hf <;> rw [hf] <;> rfl

/-- Witness for C8: the word with op1_src field 3 raises InvalidOp1Register,
and the all-zero word decodes with op1Register = Op0. -/
theorem claim_C8_op1Src_witness :
    decodeInstruction (3 <<< 50) = .error .InvalidOp1Register ∧
    (Instruction.mk (-32768) (-32768) (-32768) .Ap .Ap .Op0 .Op1 .Regular .Ap
        .Fp .NoOp).op1Register = Op1Src.Op0 :=
  ⟨(claim_C8_op1Src (3 <<< 50) (by decide)).2 (Or.inl (by decide)),
   ((claim_C8_op1Src 0 (by decide)).1
     (Instruction.mk (-32768) (-32768) (-32768) .Ap .Ap .Op0 .Op1 .Regular .Ap
       .Fp .NoOp) (by decide)).1 (by decide)⟩

/-- C9: every successfully decoded word has its three operand offsets
debiased as signed = biased - 2^15 from the 16-bit fields at bits 0..16,
16..32 and 32..48, and each decoded offset lies in [-2^15, 2^15 - 1]. -/
theorem claim_C9_offsets (w : Nat) (i : Instruction) (hw : w < 2 ^ 63)
    (h : decodeInstruction w = .ok i) :
    i.dstOffset = ((w &&& 0xffff : Nat) : Int) - 2 ^ 15 ∧
    i.op0Offset = (((w >>> 16) &&& 0xffff : Nat) : Int) - 2 ^ 15 ∧
    i.op1Offset = (((w >>> 32) &&& 0xffff : Nat) : Int) - 2 ^ 15 ∧
    (-2 ^ 15 ≤ i.dstOffset ∧ i.dstOffset < 2 ^ 15) ∧
    (-2 ^ 15 ≤ i.op0Offset ∧ i.op0Offset < 2 ^ 15) ∧
    (-2 ^ 15 ≤ i.op1Offset ∧ i.op1Offset < 2 ^ 15) := by
  obtain ⟨-, -, -, -, -, -, -, -, -, hd, ho0, ho1⟩ :=
    (decodeInstruction_ok_iff w i).mp h
  have hb1 : w &&& 0xffff < 2 ^ 16 := Nat.and_lt_two_pow _ (by norm_num)
  have hb2 : (w >>> 16) &&& 0xffff < 2 ^ 16 := Nat.and_lt_two_pow _ (by norm_num)
  have hb3 : (w >>> 32) &&& 0xffff < 2 ^ 16 := Nat.and_lt_two_pow _ (by norm_num)
  unfold Instruction.fromBiased Instruction.BIAS at hd ho0 ho1
  refine ⟨hd, ho0, ho1, ?_, ?_, ?_⟩
  · rw [hd]
    omega
  · rw [ho0]
    omega
  · rw [ho1]
    omega

/-- Witness for C9 at the all-zero word. -/
theorem claim_C9_offsets_witness :
    (0 : Nat) < 2 ^ 63 ∧
    (Instruction.mk (-32768) (-32768) (-32768) .Ap .Ap .Op0 .Op1 .Regular .Ap
        .Fp .NoOp).dstOffset = (((0 : Nat) &&& 0xffff : Nat) : Int) - 2 ^ 15 :=
  ⟨by decide,
   (claim_C9_offsets 0
     (Instruction.mk (-32768) (-32768) (-32768) .Ap .Ap .Op0 .Op1 .Regular .Ap
       .Fp .NoOp) (by decide) (by decide)).1⟩

/-- C10: decodeInstruction never raises InvalidDstRegister or
InvalidOp0Register — the dst_reg and op0_reg flag fields are masked to one
bit, so those error branches are unreachable. -/
theorem claim_C10_register_errors_unreachable (w : Nat) :
    decodeInstruction w ≠ .error .InvalidDstRegister ∧
    decodeInstruction w ≠ .error .InvalidOp0Register := by
  by_cases h0 : w >>> 63 = 0
  · constructor <;> intro hC
    · rcases decodeInstruction_error_mem w h0 _ hC with h | h | h | h | h <;>
        exact InstructionError.noConfusion h
    · rcases decodeInstruction_error_mem w h0 _ hC with h | h | h | h | h <;>
        exact InstructionError.noConfusion h
  · have hhi : decodeInstruction w = .error .HighBitSetError := by
      unfold decodeInstruction
      rw [if_pos h0]
    rw [hhi]
    constructor <;> intro hC <;> injection hC with he <;>
      exact InstructionError.noConfusion he

/-- Witness for C10 at the words 0 and 1 <<< 63. -/
theorem claim_C10_register_errors_unreachable_witness :
    decodeInstruction 0 ≠ .error .InvalidDstRegister ∧
    decodeInstruction (1 <<< 63) ≠ .error .InvalidOp0Register :=
  ⟨(claim_C10_register_errors_unreachable 0).1,
   (claim_C10_register_errors_unreachable (1 <<< 63)).2⟩
